import Mathlib

/-!
Verification development for `src/server/rb87_mot_model.py`, a stochastic
simulation of Rubidium-87 atoms in a magneto-optical trap (MOT).

The Python source is shallowly embedded over `ℝ`.  Every call to NumPy's
random generators is modelled by an explicit oracle argument:

* `np.random.rand()` draws become explicit uniform values `u…`;
* `np.random.normal(0, σ)` draws become `σ * g` with an explicit
  standard-normal value `g` supplied by the oracle;
* `np.random.choice([0,1,2,3], …)` becomes an oracle-supplied index
  reduced modulo 4, so that every oracle yields a value in the support.

In-place NumPy mutation is resolved to its caller-visible denotation:
`velocities += …` and `positions += …` update the same buffers that were
appended (by reference) to `velocities_to_avg` / `positions_to_avg`, so by
the time the averaging stage reads those lists every recorded entry holds
the run's final values; the embedding materialises this with
`List.replicate`.  Where a claim is specifically about buffer identity
(the repumper's frame property) a small explicit heap of level buffers is
used.
-/

open Classical

noncomputable section

/-! ## Physical constants (module-level globals of the source) -/

/-- `k` from `scipy.constants`: the Boltzmann constant, J/K. -/
def kB : ℝ := 1.380649e-23

/-- `hbar` from `scipy.constants`: the reduced Planck constant, J·s. -/
def hbar : ℝ := 1.054571817e-34

/-- Mass of a Rb-87 atom, kg. -/
def mass_Rb : ℝ := 87 * 1.66e-27

/-- Cooling-laser wavelength, m. -/
def wavelength : ℝ := 780.241e-9

/-- Nominal cooling-laser wavenumber `2π/λ`. -/
def k_L : ℝ := 2 * Real.pi / wavelength

/-- Natural linewidth of the transition, Hz (angular). -/
def Gamma : ℝ := 2 * Real.pi * 6.07e6

/-- Power of a single beam, W. -/
def P_laser : ℝ := 8e-3 / 6

/-- Beam diameter, m. -/
def beam_diameter : ℝ := 9e-3

/-- Saturation intensity, W/m². -/
def I_s : ℝ := 25

/-- Initial atom temperature, K. -/
def T0 : ℝ := 360.00

/-- Beam radius `beam_diameter / 2`. -/
def beam_radius : ℝ := beam_diameter / 2

/-- Relative wavelength fluctuation magnitude. -/
def wavelength_fluctuation : ℝ := 5e-8

/-- Relative laser-power fluctuation magnitude. -/
def power_fluctuation : ℝ := 0.1

/-- Relative magnetic-field fluctuation magnitude. -/
def magnetic_fluctuation : ℝ := 0.075

/-- Repumper laser intensity, W. -/
def repumper_intensity : ℝ := 1e-3

/-- Repumper wavelength, m (computed but unused by the source's repumper). -/
def repumper_wavelength : ℝ := 780.244e-9

/-- Repumper coupling coefficient. -/
def repumper_effect : ℝ := 0.6

/-- Dark-state leak probability used inside `repumper_effect_on_levels`. -/
def leak_prob : ℝ := 1e-21

/-! ## Level-transition model (`transition_between_levels`) -/

/-- The module-level `transition_probabilities` dict, in insertion order
(the order `dict.items()` iterates in). -/
def transitionPairs : List ((ℕ × ℕ) × ℝ) :=
  [((0, 1), 5e-21), ((1, 2), 0.6), ((2, 3), 5e-21),
   ((1, 0), 0.2), ((2, 1), 0.8), ((3, 2), 5e-21)]

/-- Map with the element's position, starting from index `n`
(models NumPy/Python loops indexed by `range(len(...))`). -/
def mapIdxFrom {α : Type} {β : Type} (f : ℕ → α → β) : ℕ → List α → List β
  | _, [] => []
  | i, a :: as => f i a :: mapIdxFrom f (i + 1) as

/-- One iteration of the source's inner loop body:
`if np.random.rand() < transition_prob: if levels[i] == start: levels[i] = end`.
`u` is the uniform draw consumed for this pair. -/
def applyPair (T dt u : ℝ) (lvl : ℕ) (pair : (ℕ × ℕ) × ℝ) : ℕ :=
  if u < pair.2 * Real.exp (-(|(pair.1.1 : ℝ) - (pair.1.2 : ℝ)|) * T / kB) * dt ∧
      lvl = pair.1.1
  then pair.1.2 else lvl

/-- Processing of one atom by `transition_between_levels`: the ordered
pair table is scanned once, a fresh uniform draw `u j` consumed for the
`j`-th pair, and the atom's current level is updated in place. -/
def transition_between_levels_one (T dt : ℝ) (u : ℕ → ℝ) (lvl : ℕ) : ℕ :=
  (transitionPairs.enum).foldl (fun l ju => applyPair T dt (u ju.1) l ju.2) lvl

/-- `transition_between_levels(levels, temperature, dt)`: the outer loop
over atoms; `u i j` is the uniform draw for atom `i` and pair `j`. -/
def transition_between_levels (levels : List ℕ) (T dt : ℝ) (u : ℕ → ℕ → ℝ) :
    List ℕ :=
  mapIdxFrom (fun i l => transition_between_levels_one T dt (u i) l) 0 levels

/-- The edge relation of the transition table: `tableEdge a b` holds when
some entry of `transition_probabilities` maps level `a` to level `b`. -/
def tableEdge (a b : ℕ) : Prop := ∃ p : ℝ, ((a, b), p) ∈ transitionPairs

/-! ## Repumper model (`repumper_effect_on_levels`) -/

/-- `repumper_effect_on_levels(levels, velocities, I_repumper, temperature)`.
`uRep i` / `uLeak i` are atom `i`'s uniform draws from the two
`np.random.rand(len(levels))` arrays.  The promotion and leak masks are
taken on the *input* levels (they are disjoint: level 0 vs levels 1, 2),
and all writes go to a fresh `np.copy` of `levels`; the unused
`k_L_eff_repumper` draw of the source is omitted as dead code. -/
def repumper_effect_on_levels (levels : List ℕ) (velocities : List ℝ)
    (I_repumper T : ℝ) (uRep uLeak : ℕ → ℝ) : List ℕ :=
  mapIdxFrom (fun i l =>
    if (l = 1 ∨ l = 2) ∧ uLeak i < leak_prob then 3
    else if l = 0 ∧ uRep i < repumper_effect * I_repumper / I_s *
        Real.exp (-(velocities.getD i 0) ^ 2 / (2 * kB * max T 1e-12 / mass_Rb))
    then 1 else l) 0 levels

/-! A tiny heap of level buffers, used to state the frame property of the
repumper: the source reads `levels`, writes only into `np.copy(levels)`
and returns the copy, so the caller's buffer is untouched. -/

/-- A store of NumPy level arrays, addressed by allocation index. -/
abbrev Heap : Type := List (List ℕ)

/-- Read the buffer at reference `r` (empty for a dangling reference). -/
def heapGet (h : Heap) (r : ℕ) : List ℕ := h.getD r []

/-- Allocate a fresh buffer holding `xs`, returning the new heap and the
fresh reference. -/
def heapAlloc (h : Heap) (xs : List ℕ) : Heap × ℕ := (h ++ [xs], h.length)

/-- A call `repumper_effect_on_levels(levels, …)` at the heap level:
read the argument buffer, compute the new level array, and allocate it
as a fresh buffer (`np.copy` plus masked writes on the copy). -/
def repumper_call (h : Heap) (lref : ℕ) (velocities : List ℝ) (I T : ℝ)
    (uRep uLeak : ℕ → ℝ) : Heap × ℕ :=
  heapAlloc h (repumper_effect_on_levels (heapGet h lref) velocities I T uRep uLeak)

/-! ## Scattering force (`scattering_force`) -/

/-- `scattering_force(v, delta, I, r, delta_wavelength, delta_magnetic)`.
`g1`, `g2` are the two standard-normal draws of the call
(`np.random.normal(0, σ) = σ·g`). -/
def scattering_force (v delta I r delta_wavelength delta_magnetic g1 g2 : ℝ) : ℝ :=
  let k_L_eff := 2 * Real.pi / (wavelength * (1 + delta_wavelength * g1))
  let s := I / I_s
  let delta_effective := delta * (1 + delta_magnetic * g2)
  let I_r := I * Real.exp (-r ^ 2 / beam_radius ^ 2)
  hbar * k_L_eff * I_r * Gamma /
    (2 * (1 + s + 4 * (delta_effective - k_L_eff * v) ^ 2 / Gamma ^ 2))

/-! ## Per-step recorded quantities of `simulate_mot` -/

/-- The velocities of the atoms currently at level `l`
(`np.where(levels == l, velocities, np.nan)` with the NaNs dropped, as
`np.nanmean` does; `levels` and `velocities` are index-aligned). -/
def atomsAtLevel (levels : List ℕ) (velocities : List ℝ) (l : ℕ) : List ℝ :=
  ((levels.zip velocities).filter (fun p => p.1 == l)).map Prod.snd

/-- The source's per-level mean velocity:
`np.nanmean(np.where(levels == l, velocities, np.nan))` guarded by
`np.any(levels == l)`; `none` models the NaN recorded for an unpopulated
level. -/
def levelMeanVelocity (levels : List ℕ) (velocities : List ℝ) (l : ℕ) : Option ℝ :=
  if levels.contains l then
    some ((atomsAtLevel levels velocities l).sum /
      ((atomsAtLevel levels velocities l).length : ℝ))
  else none

/-- Modelled from the spec: "component l equals the mean of the velocities
of the atoms currently at level l when that level is populated, and is NaN
when level l has zero population at that step."  Stated directly on the
set of atoms at level `l`; compared against the source's
`levelMeanVelocity`. -/
def levelMeanVelocity_spec (levels : List ℕ) (velocities : List ℝ) (l : ℕ) :
    Option ℝ :=
  if atomsAtLevel levels velocities l = [] then none
  else some ((atomsAtLevel levels velocities l).sum /
    ((atomsAtLevel levels velocities l).length : ℝ))

/-- The 4-vector appended to `velocity_distributions` each step: the
source computes `avg_level_1_velocity … avg_level_4_velocity` from the
masks `levels == 1`, `levels == 2`, `levels == 3`, `levels == 4`. -/
def velocity_distribution_step (levels : List ℕ) (velocities : List ℝ) :
    List (Option ℝ) :=
  [levelMeanVelocity levels velocities 1,
   levelMeanVelocity levels velocities 2,
   levelMeanVelocity levels velocities 3,
   levelMeanVelocity levels velocities 4]

/-- Velocities of the trapped atoms: `velocities[np.abs(positions) < beam_radius]`
(`positions` and `velocities` index-aligned). -/
def trappedVelocities (positions velocities : List ℝ) : List ℝ :=
  ((positions.zip velocities).filter
    (fun p => decide (|p.1| < beam_radius))).map Prod.snd

/-- The per-step trapped temperature: `np.mean(mass_Rb * v² ) / k` over the
trapped atoms, or exactly `0` when no atom is trapped. -/
def trapped_temperature (positions velocities : List ℝ) : ℝ :=
  if 0 < (trappedVelocities positions velocities).length then
    ((trappedVelocities positions velocities).map (fun v => mass_Rb * v ^ 2)).sum /
      ((trappedVelocities positions velocities).length : ℝ) / kB
  else 0

/-- Sum of the four bins of `np.bincount(levels, minlength=4)`.  For the
level arrays the simulation produces (values in `{0,1,2,3}`) this equals
`np.sum(level_counts) = len(levels)`. -/
def levelCountsSum (levels : List ℕ) : ℕ :=
  levels.count 0 + levels.count 1 + levels.count 2 + levels.count 3

/-- `np.bincount(levels, minlength=4) / np.sum(level_counts)`: the
level-population fractions appended to `levels_distributions`. -/
def level_distribution (levels : List ℕ) : List ℝ :=
  [(levels.count 0 : ℝ) / (levelCountsSum levels : ℝ),
   (levels.count 1 : ℝ) / (levelCountsSum levels : ℝ),
   (levels.count 2 : ℝ) / (levelCountsSum levels : ℝ),
   (levels.count 3 : ℝ) / (levelCountsSum levels : ℝ)]

/-! ## The time loop of `simulate_mot` -/

/-- The random draws one time step consumes: the per-step power
perturbation, per-atom force-noise pairs, and the repumper/transition
uniforms. -/
structure StepRand where
  gPower : ℝ
  gForce : ℕ → ℝ × ℝ
  uRep : ℕ → ℝ
  uLeak : ℕ → ℝ
  uTrans : ℕ → ℕ → ℝ

/-- The random draws one simulation run consumes: initial condition draws
(one per atom index) and a stream of per-step draws. -/
structure RunRand where
  gVel0 : ℕ → ℝ
  pos0 : ℕ → ℝ
  lvl0 : ℕ → ℕ
  step : ℕ → StepRand

/-- The mutable per-run arrays (`positions`, `velocities`, `levels`). -/
structure RunState where
  positions : List ℝ
  velocities : List ℝ
  levels : List ℕ

/-- What one loop iteration appends to the recording lists, together with
the true values of the position/velocity arrays at append time. -/
structure StepRecord where
  temperature : ℝ
  popvec : List ℝ
  vdist : List (Option ℝ)
  posSnap : List ℝ
  velSnap : List ℝ

instance : Inhabited StepRecord := ⟨⟨0, [], [], [], []⟩⟩

/-- Initial state of a run: `n_atoms` velocities `~ N(0, k·T0/m)`,
positions uniform in `[-beam_radius, beam_radius]` (the oracle supplies
the drawn value), levels drawn from `{0,1,2,3}`. -/
def mot_init (n_atoms : ℕ) (rr : RunRand) : RunState :=
  ⟨(List.range n_atoms).map rr.pos0,
   (List.range n_atoms).map (fun i => Real.sqrt (kB * T0 / mass_Rb) * rr.gVel0 i),
   (List.range n_atoms).map (fun i => rr.lvl0 i % 4)⟩

/-- One iteration of the `for i, t in enumerate(times)` loop body, in the
source's order: forces, semi-implicit Euler update, per-level mean
velocities (pre-transition levels, post-update velocities), trapped
temperature (post-update positions), repumper, level transitions, and the
level-population fractions of the post-transition levels. -/
def mot_step (dt : ℝ) (sr : StepRand) (st : RunState) : RunState × StepRecord :=
  let P_laser_eff := P_laser * (1 + power_fluctuation * sr.gPower)
  let I := P_laser_eff / (Real.pi * (beam_diameter / 2) ^ 2)
  let forces := mapIdxFrom (fun i vp =>
      scattering_force vp.1 0 I vp.2 wavelength_fluctuation magnetic_fluctuation
        (sr.gForce i).1 (sr.gForce i).2) 0 (st.velocities.zip st.positions)
  let velocities := List.zipWith (fun v f => v + f / mass_Rb * dt) st.velocities forces
  let positions := List.zipWith (fun p v => p + v * dt) st.positions velocities
  let vdist := velocity_distribution_step st.levels velocities
  let T := trapped_temperature positions velocities
  let levels1 :=
    repumper_effect_on_levels st.levels velocities repumper_intensity T sr.uRep sr.uLeak
  let levels2 := transition_between_levels levels1 T dt sr.uTrans
  (⟨positions, velocities, levels2⟩,
   ⟨T, level_distribution levels2, vdist, positions, velocities⟩)

/-- Run `n` consecutive steps starting at step index `i`, returning the
final state and the records in step order. -/
def mot_loop (dt : ℝ) (sr : ℕ → StepRand) : ℕ → ℕ → RunState → RunState × List StepRecord
  | _, 0, st => (st, [])
  | i, n + 1, st =>
    let first := mot_step dt (sr i) st
    let rest := mot_loop dt sr (i + 1) n first.1
    (rest.1, first.2 :: rest.2)

/-- Length of `np.arange(0, time_max, dt)`: `⌈time_max/dt⌉` clamped at 0.
(`dt = 0` raises in NumPy; the model gives an empty grid.) -/
def nSteps (time_max dt : ℝ) : ℕ := ⌈time_max / dt⌉₊

/-- `np.arange(0, time_max, dt)`. -/
def npTimes (time_max dt : ℝ) : List ℝ :=
  (List.range (nSteps time_max dt)).map (fun i : ℕ => (i : ℝ) * dt)

/-- One full simulation run: initial draws, then one `mot_step` per entry
of the time grid. -/
def mot_run (n_atoms : ℕ) (time_max dt : ℝ) (rr : RunRand) :
    RunState × List StepRecord :=
  mot_loop dt rr.step 0 (nSteps time_max dt) (mot_init n_atoms rr)

/-! ## The averaging stage (lines 229–239 of the source) -/

/-- `np.mean(xss, axis=0)` for a rectangular 2-D array. -/
def npMeanAxis0 (xss : List (List ℝ)) : List ℝ :=
  (List.range (xss.headD []).length).map
    (fun j => (xss.map (fun xs => xs.getD j 0)).sum / (xss.length : ℝ))

/-- `np.mean(A, axis=1)` for a rectangular 3-D array: one row per outer
index, each the mean over the middle axis. -/
def npMeanAxis1 (A : List (List (List ℝ))) : List (List ℝ) :=
  A.map npMeanAxis0

/-- `np.mean(A, axis=0)` for a rectangular 3-D array. -/
def npMeanAxis0Rows (A : List (List (List ℝ))) : List (List ℝ) :=
  (List.range (A.headD []).length).map
    (fun t => npMeanAxis0 (A.map (fun run => run.getD t [])))

/-- `np.mean` over a list of possibly-NaN values: NaN-poisoned, as NumPy's
plain `mean` is. -/
def optMean (xs : List (Option ℝ)) : Option ℝ :=
  if xs.all Option.isSome then
    some ((xs.map (fun o => o.getD 0)).sum / (xs.length : ℝ))
  else none

/-- `np.mean(A, axis=0)` for the 3-D array of per-level mean velocities
(entries may be NaN). -/
def npMeanAxis0Opt (A : List (List (List (Option ℝ)))) :
    List (List (Option ℝ)) :=
  (List.range (A.headD []).length).map
    (fun t => (List.range ((A.headD []).getD t []).length).map
      (fun c => optMean (A.map (fun run => (run.getD t []).getD c none))))

/-- The tuple `simulate_mot` returns. -/
structure MotOutput where
  times : List ℝ
  avg_positions : List (List ℝ)
  avg_velocities : List (List ℝ)
  avg_temperatures : List ℝ
  avg_level_populations : List (List ℝ)
  avg_velocity_distributions : List (List (Option ℝ))

/-- `simulate_mot(n_atoms, time_max, dt, n_simulations)` with an explicit
random oracle (`oracle r` drives run `r`).  Every entry the source appends
to `positions_to_avg` / `velocities_to_avg` is a reference to the array
that `+=` keeps updating in place, so at averaging time each of the
`len(times)` entries holds the run's final values — hence the
`List.replicate`.  `avg_positions` / `avg_velocities` use `axis=1`
(the step axis), the three scalar/4-vector series use `axis=0` (the run
axis), exactly as in the source. -/
def simulate_mot (n_atoms : ℕ) (time_max dt : ℝ) (n_simulations : ℕ)
    (oracle : ℕ → RunRand) : MotOutput :=
  let runs := (List.range n_simulations).map
    (fun r => mot_run n_atoms time_max dt (oracle r))
  let positions_all := runs.map (fun run => List.replicate run.2.length run.1.positions)
  let velocities_all := runs.map (fun run => List.replicate run.2.length run.1.velocities)
  { times := npTimes time_max dt
    avg_positions := npMeanAxis1 positions_all
    avg_velocities := npMeanAxis1 velocities_all
    avg_temperatures := npMeanAxis0 (runs.map (fun run => run.2.map StepRecord.temperature))
    avg_level_populations := npMeanAxis0Rows (runs.map (fun run => run.2.map StepRecord.popvec))
    avg_velocity_distributions :=
      npMeanAxis0Opt (runs.map (fun run => run.2.map StepRecord.vdist)) }

/-- Well-formedness of a run state: the three per-atom arrays have length
`n_atoms` and every level value lies in `{0, 1, 2, 3}`. -/
def StateWF (n : ℕ) (st : RunState) : Prop :=
  st.positions.length = n ∧ st.velocities.length = n ∧ st.levels.length = n ∧
    ∀ l ∈ st.levels, l < 4

/-- A concrete all-zero step oracle, used to instantiate theorems. -/
def stepRand0 : StepRand := ⟨0, fun _ => (0, 0), fun _ => 0, fun _ => 0, fun _ _ => 0⟩

/-- A concrete all-zero run oracle, used to instantiate theorems. -/
def runRand0 : RunRand := ⟨fun _ => 0, fun _ => 0, fun _ => 0, fun _ => stepRand0⟩

/-! ## Helper lemmas about the embedding -/

theorem length_mapIdxFrom {α β : Type} (f : ℕ → α → β) :
    ∀ (i : ℕ) (l : List α), (mapIdxFrom f i l).length = l.length
  | _, [] => rfl
  | i, _ :: as => by simp [mapIdxFrom, length_mapIdxFrom f (i + 1) as]

theorem getD_mapIdxFrom {α β : Type} (f : ℕ → α → β) :
    ∀ (i n : ℕ) (l : List α) (d : β) (d' : α), n < l.length →
      (mapIdxFrom f i l).getD n d = f (i + n) (l.getD n d')
  | _, _, [], _, _, h => absurd h (by simp)
  | i, 0, a :: as, d, d', _ => by simp [mapIdxFrom]
  | i, n + 1, a :: as, d, d', h => by
    simp only [mapIdxFrom, List.getD_cons_succ]
    rw [getD_mapIdxFrom f (i + 1) n as d d' (by simpa using h)]
    congr 1
    omega

theorem mem_mapIdxFrom {α β : Type} (f : ℕ → α → β) :
    ∀ (i : ℕ) (l : List α) (b : β), b ∈ mapIdxFrom f i l → ∃ j a, a ∈ l ∧ b = f j a
  | i, [], b, h => absurd h (by simp [mapIdxFrom])
  | i, a :: as, b, h => by
    rcases (by simpa [mapIdxFrom] using h : b = f i a ∨ b ∈ mapIdxFrom f (i + 1) as) with
      h1 | h2
    · exact ⟨i, a, by simp, h1⟩
    · obtain ⟨j, a', ha', rfl⟩ := mem_mapIdxFrom f (i + 1) as b h2
      exact ⟨j, a', by simp [ha'], rfl⟩

theorem forall₂_mapIdxFrom {α β : Type} {R : α → β → Prop} (f : ℕ → α → β)
    (hf : ∀ j a, R a (f j a)) :
    ∀ (i : ℕ) (l : List α), List.Forall₂ R l (mapIdxFrom f i l)
  | _, [] => List.Forall₂.nil
  | i, a :: as => List.Forall₂.cons (hf i a) (forall₂_mapIdxFrom f hf (i + 1) as)

theorem getD_mem_of_lt {α : Type} (l : List α) (n : ℕ) (d : α) (h : n < l.length) :
    l.getD n d ∈ l := by
  rw [List.getD_eq_getElem l d h]
  exact List.getElem_mem h

theorem snd_mem_of_mem_enumFrom {α : Type} :
    ∀ (l : List α) (n : ℕ) (x : ℕ × α), x ∈ l.enumFrom n → x.2 ∈ l
  | [], _, _, h => absurd h (by simp)
  | a :: as, n, x, h => by
    rcases (by simpa using h : x = (n, a) ∨ x ∈ as.enumFrom (n + 1)) with h1 | h2
    · simp [h1]
    · exact List.mem_cons_of_mem _ (snd_mem_of_mem_enumFrom as (n + 1) x h2)

/-! ## Level-transition lemmas -/

theorem tableEdge_lt4 {a b : ℕ} (h : tableEdge a b) : b < 4 := by
  obtain ⟨p, hp⟩ := h
  simp only [transitionPairs, List.mem_cons, List.not_mem_nil, or_false,
    Prod.mk.injEq] at hp
  rcases hp with ⟨⟨_, hb⟩, _⟩ | ⟨⟨_, hb⟩, _⟩ | ⟨⟨_, hb⟩, _⟩ | ⟨⟨_, hb⟩, _⟩ |
    ⟨⟨_, hb⟩, _⟩ | ⟨⟨_, hb⟩, _⟩ <;> omega

theorem reachable_lt4 {a b : ℕ} (h : Relation.ReflTransGen tableEdge a b)
    (ha : a < 4) : b < 4 := by
  induction h with
  | refl => exact ha
  | tail _ he _ => exact tableEdge_lt4 he

theorem foldl_applyPair_reachable (T dt : ℝ) (u : ℕ → ℝ) :
    ∀ (L : List (ℕ × ((ℕ × ℕ) × ℝ))) (lvl : ℕ),
      (∀ x ∈ L, x.2 ∈ transitionPairs) →
      Relation.ReflTransGen tableEdge lvl
        (L.foldl (fun l ju => applyPair T dt (u ju.1) l ju.2) lvl) := by
  intro L
  induction L with
  | nil => intro lvl _; exact Relation.ReflTransGen.refl
  | cons x L ih =>
    intro lvl h
    have hx : x.2 ∈ transitionPairs := h x (by simp)
    have h1 : Relation.ReflTransGen tableEdge lvl (applyPair T dt (u x.1) lvl x.2) := by
      by_cases hc : u x.1 <
          x.2.2 * Real.exp (-(|(x.2.1.1 : ℝ) - (x.2.1.2 : ℝ)|) * T / kB) * dt ∧
          lvl = x.2.1.1
      · rw [applyPair, if_pos hc]
        exact Relation.ReflTransGen.single ⟨x.2.2, by rw [hc.2]; exact hx⟩
      · rw [applyPair, if_neg hc]
    rw [List.foldl_cons]
    exact h1.trans (ih _ (fun y hy => h y (List.mem_cons_of_mem _ hy)))

theorem transition_one_reachable (T dt : ℝ) (u : ℕ → ℝ) (lvl : ℕ) :
    Relation.ReflTransGen tableEdge lvl (transition_between_levels_one T dt u lvl) :=
  foldl_applyPair_reachable T dt u _ lvl
    (fun x hx => snd_mem_of_mem_enumFrom transitionPairs 0 x hx)

theorem length_transition (levels : List ℕ) (T dt : ℝ) (u : ℕ → ℕ → ℝ) :
    (transition_between_levels levels T dt u).length = levels.length :=
  length_mapIdxFrom _ 0 levels

theorem mem_transition_lt4 (levels : List ℕ) (T dt : ℝ) (u : ℕ → ℕ → ℝ)
    (h : ∀ l ∈ levels, l < 4) :
    ∀ l' ∈ transition_between_levels levels T dt u, l' < 4 := by
  intro l' hl'
  obtain ⟨j, a, ha, rfl⟩ := mem_mapIdxFrom _ 0 levels l' hl'
  exact reachable_lt4 (transition_one_reachable T dt (u j) a) (h a ha)

/-! ## Repumper lemmas -/

theorem length_repumper (levels : List ℕ) (velocities : List ℝ) (I T : ℝ)
    (uRep uLeak : ℕ → ℝ) :
    (repumper_effect_on_levels levels velocities I T uRep uLeak).length =
      levels.length :=
  length_mapIdxFrom _ 0 levels

theorem mem_repumper_lt4 (levels : List ℕ) (velocities : List ℝ) (I T : ℝ)
    (uRep uLeak : ℕ → ℝ) (h : ∀ l ∈ levels, l < 4) :
    ∀ l' ∈ repumper_effect_on_levels levels velocities I T uRep uLeak, l' < 4 := by
  intro l' hl'
  obtain ⟨j, a, ha, rfl⟩ := mem_mapIdxFrom _ 0 levels l' hl'
  split
  · omega
  · split
    · omega
    · exact h a ha

/-! ## Level-population lemmas -/

theorem levelCountsSum_eq_length :
    ∀ L : List ℕ, (∀ l ∈ L, l < 4) → levelCountsSum L = L.length := by
  intro L
  induction L with
  | nil => intro _; rfl
  | cons a L ih =>
    intro h
    have ha : a < 4 := h a (by simp)
    have hL := ih (fun l hl => h l (List.mem_cons_of_mem _ hl))
    unfold levelCountsSum at hL ⊢
    simp only [List.count_cons, List.length_cons]
    interval_cases a <;> simp_all <;> omega

theorem level_distribution_sum (L : List ℕ) (h4 : ∀ l ∈ L, l < 4) (h0 : L ≠ []) :
    (level_distribution L).sum = 1 := by
  have hS : levelCountsSum L = L.length := levelCountsSum_eq_length L h4
  have hpos : (0 : ℝ) < (levelCountsSum L : ℝ) := by
    rw [hS]
    exact_mod_cast List.length_pos.mpr h0
  unfold level_distribution
  rw [List.sum_cons, List.sum_cons, List.sum_cons, List.sum_cons, List.sum_nil]
  field_simp
  unfold levelCountsSum
  push_cast
  ring

/-! ## Trapped-temperature lemmas -/

theorem trapped_temperature_nonneg (positions velocities : List ℝ) :
    0 ≤ trapped_temperature positions velocities := by
  unfold trapped_temperature
  split
  · apply div_nonneg (div_nonneg ?_ ?_) ?_
    · apply List.sum_nonneg
      intro x hx
      obtain ⟨v, _, rfl⟩ := List.mem_map.mp hx
      have hm : (0 : ℝ) ≤ mass_Rb := by norm_num [mass_Rb]
      positivity
    · positivity
    · norm_num [kB]
  · exact le_refl 0

theorem trappedVelocities_eq_nil (positions velocities : List ℝ)
    (h : ∀ p ∈ positions, ¬ |p| < beam_radius) :
    trappedVelocities positions velocities = [] := by
  unfold trappedVelocities
  rw [List.map_eq_nil_iff, List.filter_eq_nil_iff]
  rintro ⟨a, b⟩ hab
  have ha : a ∈ positions := (List.of_mem_zip hab).1
  simpa using h a ha

theorem trapped_temperature_eq_zero (positions velocities : List ℝ)
    (h : ∀ p ∈ positions, ¬ |p| < beam_radius) :
    trapped_temperature positions velocities = 0 := by
  unfold trapped_temperature
  rw [trappedVelocities_eq_nil positions velocities h]
  simp

theorem trapped_temperature_mean (positions velocities : List ℝ)
    (h : trappedVelocities positions velocities ≠ []) :
    trapped_temperature positions velocities * kB *
      ((trappedVelocities positions velocities).length : ℝ) =
    ((trappedVelocities positions velocities).map (fun v => mass_Rb * v ^ 2)).sum := by
  unfold trapped_temperature
  rw [if_pos (List.length_pos.mpr h)]
  have hlen : ((trappedVelocities positions velocities).length : ℝ) ≠ 0 := by
    exact_mod_cast (List.length_pos.mpr h).ne'
  have hkB : kB ≠ 0 := by norm_num [kB]
  field_simp
  ring

/-! ## Time-loop lemmas -/

theorem mot_step_record_temperature (dt : ℝ) (sr : StepRand) (st : RunState) :
    (mot_step dt sr st).2.temperature =
      trapped_temperature (mot_step dt sr st).2.posSnap (mot_step dt sr st).2.velSnap := rfl

theorem mot_step_record_popvec (dt : ℝ) (sr : StepRand) (st : RunState) :
    (mot_step dt sr st).2.popvec = level_distribution (mot_step dt sr st).1.levels := rfl

theorem mot_step_wf (dt : ℝ) (sr : StepRand) (st : RunState) (n : ℕ)
    (h : StateWF n st) : StateWF n (mot_step dt sr st).1 := by
  obtain ⟨hp, hv, hl, h4⟩ := h
  unfold StateWF mot_step
  refine ⟨?_, ?_, ?_, ?_⟩
  · simp [List.length_zipWith, length_mapIdxFrom, List.length_zip, hp, hv]
  · simp [List.length_zipWith, length_mapIdxFrom, List.length_zip, hp, hv]
  · simp [length_transition, length_repumper, hl]
  · exact mem_transition_lt4 _ _ _ _ (mem_repumper_lt4 _ _ _ _ _ _ h4)

theorem mot_loop_snd_length (dt : ℝ) (sr : ℕ → StepRand) :
    ∀ (n i : ℕ) (st : RunState), ((mot_loop dt sr i n st).2).length = n
  | 0, _, _ => rfl
  | n + 1, i, st => by
    simp only [mot_loop, List.length_cons, mot_loop_snd_length dt sr n (i + 1)]

theorem mot_loop_wf (dt : ℝ) (sr : ℕ → StepRand) (n : ℕ) :
    ∀ (m i : ℕ) (st : RunState), StateWF n st → StateWF n (mot_loop dt sr i m st).1
  | 0, _, _, h => h
  | m + 1, i, st, h => by
    simp only [mot_loop]
    exact mot_loop_wf dt sr n m (i + 1) _ (mot_step_wf dt (sr i) st n h)

theorem mot_loop_records (dt : ℝ) (sr : ℕ → StepRand) (n : ℕ) :
    ∀ (m i : ℕ) (st : RunState), StateWF n st →
      ∀ rec ∈ (mot_loop dt sr i m st).2,
        ∃ sr' st', StateWF n st' ∧ rec = (mot_step dt sr' st').2
  | 0, _, _, _, rec, hrec => absurd hrec (by simp [mot_loop])
  | m + 1, i, st, h, rec, hrec => by
    simp only [mot_loop, List.mem_cons] at hrec
    rcases hrec with h1 | h2
    · exact ⟨sr i, st, h, h1⟩
    · exact mot_loop_records dt sr n m (i + 1) _ (mot_step_wf dt (sr i) st n h) rec h2

theorem mot_init_wf (n : ℕ) (rr : RunRand) : StateWF n (mot_init n rr) := by
  refine ⟨by simp [mot_init], by simp [mot_init], by simp [mot_init], ?_⟩
  intro l hl
  simp only [mot_init, List.mem_map] at hl
  obtain ⟨i, _, rfl⟩ := hl
  exact Nat.mod_lt _ (by norm_num)

theorem mot_run_snd_length (n_atoms : ℕ) (tm dt : ℝ) (rr : RunRand) :
    ((mot_run n_atoms tm dt rr).2).length = nSteps tm dt :=
  mot_loop_snd_length dt rr.step (nSteps tm dt) 0 (mot_init n_atoms rr)

theorem mot_run_records (n_atoms : ℕ) (tm dt : ℝ) (rr : RunRand) :
    ∀ rec ∈ (mot_run n_atoms tm dt rr).2,
      ∃ sr' st', StateWF n_atoms st' ∧ rec = (mot_step dt sr' st').2 :=
  mot_loop_records dt rr.step n_atoms (nSteps tm dt) 0 _ (mot_init_wf n_atoms rr)

theorem mot_step_popvec_sum (dt : ℝ) (sr : StepRand) (st : RunState) (n : ℕ)
    (hn : 1 ≤ n) (h : StateWF n st) :
    |((mot_step dt sr st).2.popvec).sum - 1| ≤ 1e-9 := by
  have hwf := mot_step_wf dt sr st n h
  have hne : (mot_step dt sr st).1.levels ≠ [] := by
    intro hc
    have hlen := hwf.2.2.1
    rw [hc] at hlen
    simp at hlen
    omega
  rw [mot_step_record_popvec, level_distribution_sum _ hwf.2.2.2 hne]
  norm_num

/-! ## Claim C6 -/

/-- Claim C6: with `detuning = 0`, `v = 0`, `r = 0` and a wavelength draw
that scales to zero (`dw * g1 = 0`; in particular for every draw when the
fluctuation magnitude passed for `delta_wavelength` is zero, the
deterministic force-test configuration), `scattering_force` returns
exactly `ħ·k_L·I·Γ / (2·(1 + s))` with `s = I/I_s`: no Doppler term in
the denominator, for every magnetic draw. -/
theorem C6_zero_detuning_force (I dw dm g1 g2 : ℝ) (h : dw * g1 = 0) :
    scattering_force 0 0 I 0 dw dm g1 g2 =
      hbar * k_L * I * Gamma / (2 * (1 + I / I_s)) := by
  simp only [scattering_force, k_L]
  rw [h]
  norm_num [Real.exp_zero]

theorem C6_zero_detuning_force_witness :
    (0 : ℝ) * 1 = 0 ∧
    scattering_force 0 0 25 0 0 magnetic_fluctuation 1 1 =
      hbar * k_L * 25 * Gamma / (2 * (1 + 25 / I_s)) :=
  ⟨by norm_num, C6_zero_detuning_force 25 0 magnetic_fluctuation 1 1 (by norm_num)⟩

/-! ## Claim C7 -/

/-- Claim C7: the recorded trapped-atom temperature of every step of every
run equals `mean(m·v²)/k_B` over exactly the atoms with
`|position| < beam_radius` at that step, is nonnegative, and is exactly 0
(not NaN) whenever no atom is trapped at that step. -/
theorem C7_trapped_temperature_props (n_atoms : ℕ) (tm dt : ℝ) (rr : RunRand)
    (rec : StepRecord) (hrec : rec ∈ (mot_run n_atoms tm dt rr).2) :
    0 ≤ rec.temperature ∧
    rec.temperature = trapped_temperature rec.posSnap rec.velSnap ∧
    ((∀ p ∈ rec.posSnap, ¬ |p| < beam_radius) → rec.temperature = 0) ∧
    (trappedVelocities rec.posSnap rec.velSnap ≠ [] →
      rec.temperature * kB * ((trappedVelocities rec.posSnap rec.velSnap).length : ℝ) =
        ((trappedVelocities rec.posSnap rec.velSnap).map (fun v => mass_Rb * v ^ 2)).sum) := by
  obtain ⟨sr', st', hwf, rfl⟩ := mot_run_records n_atoms tm dt rr rec hrec
  have hT := mot_step_record_temperature dt sr' st'
  refine ⟨?_, hT, ?_, ?_⟩
  · rw [hT]
    exact trapped_temperature_nonneg _ _
  · intro hnone
    rw [hT]
    exact trapped_temperature_eq_zero _ _ hnone
  · intro hne
    rw [hT]
    exact trapped_temperature_mean _ _ hne

theorem C7_trapped_temperature_props_witness :
    ((mot_run 1 1 1 runRand0).2).getD 0 default ∈ (mot_run 1 1 1 runRand0).2 ∧
    (0 ≤ (((mot_run 1 1 1 runRand0).2).getD 0 default).temperature ∧
     (((mot_run 1 1 1 runRand0).2).getD 0 default).temperature =
       trapped_temperature (((mot_run 1 1 1 runRand0).2).getD 0 default).posSnap
         (((mot_run 1 1 1 runRand0).2).getD 0 default).velSnap ∧
     ((∀ p ∈ (((mot_run 1 1 1 runRand0).2).getD 0 default).posSnap, ¬ |p| < beam_radius) →
       (((mot_run 1 1 1 runRand0).2).getD 0 default).temperature = 0) ∧
     (trappedVelocities (((mot_run 1 1 1 runRand0).2).getD 0 default).posSnap
         (((mot_run 1 1 1 runRand0).2).getD 0 default).velSnap ≠ [] →
       (((mot_run 1 1 1 runRand0).2).getD 0 default).temperature * kB *
         ((trappedVelocities (((mot_run 1 1 1 runRand0).2).getD 0 default).posSnap
           (((mot_run 1 1 1 runRand0).2).getD 0 default).velSnap).length : ℝ) =
         ((trappedVelocities (((mot_run 1 1 1 runRand0).2).getD 0 default).posSnap
           (((mot_run 1 1 1 runRand0).2).getD 0 default).velSnap).map
             (fun v => mass_Rb * v ^ 2)).sum)) := by
  have hmem : ((mot_run 1 1 1 runRand0).2).getD 0 default ∈ (mot_run 1 1 1 runRand0).2 := by
    apply getD_mem_of_lt
    rw [mot_run_snd_length]
    norm_num [nSteps]
  exact ⟨hmem, C7_trapped_temperature_props 1 1 1 runRand0 _ hmem⟩

/-! ## Claim C9 -/

/-- Claim C9: the repumper clamps the temperature to `max(T, 1e-12)`;
every atom currently at level 0 is promoted to level 1 exactly when its
own uniform draw falls below
`repumper_effect · (I_repumper/I_s) · exp(-v²/(2·k_B·T_clamped/m))`
computed from that atom's own velocity; and an atom at a level other than
0 (and other than 1, where it may simply remain) never ends at level 1. -/
theorem C9_repumper_promotion (levels : List ℕ) (velocities : List ℝ) (I T : ℝ)
    (uRep uLeak : ℕ → ℝ) (i : ℕ) (hi : i < levels.length) :
    (levels.getD i 0 = 0 →
      (repumper_effect_on_levels levels velocities I T uRep uLeak).getD i 0 =
        if uRep i < repumper_effect * I / I_s *
            Real.exp (-(velocities.getD i 0) ^ 2 / (2 * kB * max T 1e-12 / mass_Rb))
        then 1 else 0) ∧
    (levels.getD i 0 ≠ 0 → levels.getD i 0 ≠ 1 →
      (repumper_effect_on_levels levels velocities I T uRep uLeak).getD i 0 ≠ 1) := by
  have hout : (repumper_effect_on_levels levels velocities I T uRep uLeak).getD i 0 =
      (fun j l =>
        if (l = 1 ∨ l = 2) ∧ uLeak j < leak_prob then 3
        else if l = 0 ∧ uRep j < repumper_effect * I / I_s *
            Real.exp (-(velocities.getD j 0) ^ 2 / (2 * kB * max T 1e-12 / mass_Rb))
        then 1 else l) (0 + i) (levels.getD i 0) := by
    unfold repumper_effect_on_levels
    exact getD_mapIdxFrom _ 0 i levels 0 0 hi
  rw [Nat.zero_add] at hout
  constructor
  · intro h0
    rw [hout, h0]
    simp
  · intro h0 h1
    rw [hout]
    beta_reduce
    split
    · norm_num
    · split
      · rename_i hcond
        exact absurd hcond.1 h0
      · exact h1

theorem C9_repumper_promotion_witness :
    (0 : ℕ) < ([0] : List ℕ).length ∧
    ((([0] : List ℕ).getD 0 0 = 0 →
      (repumper_effect_on_levels [0] [0] 25 0 (fun _ => 0) (fun _ => 1)).getD 0 0 =
        if (fun _ : ℕ => (0 : ℝ)) 0 < repumper_effect * 25 / I_s *
            Real.exp (-(([0] : List ℝ).getD 0 0) ^ 2 / (2 * kB * max 0 1e-12 / mass_Rb))
        then 1 else 0) ∧
     (([0] : List ℕ).getD 0 0 ≠ 0 → ([0] : List ℕ).getD 0 0 ≠ 1 →
      (repumper_effect_on_levels [0] [0] 25 0 (fun _ => 0) (fun _ => 1)).getD 0 0 ≠ 1)) :=
  ⟨by norm_num,
   C9_repumper_promotion [0] [0] 25 0 (fun _ => 0) (fun _ => 1) 0 (by norm_num)⟩

/-! ## Claim C10 -/

/-- Claim C10: `repumper_effect_on_levels` does not mutate the caller's
level buffer: all writes go to the `np.copy`, a freshly allocated buffer
distinct from the argument, which is what the call returns; after the call
the input buffer holds exactly what it held before. -/
theorem C10_repumper_frame (h : Heap) (lref : ℕ) (velocities : List ℝ) (I T : ℝ)
    (uRep uLeak : ℕ → ℝ) (hl : lref < h.length) :
    heapGet (repumper_call h lref velocities I T uRep uLeak).1 lref = heapGet h lref ∧
    (repumper_call h lref velocities I T uRep uLeak).2 ≠ lref ∧
    heapGet (repumper_call h lref velocities I T uRep uLeak).1
        (repumper_call h lref velocities I T uRep uLeak).2 =
      repumper_effect_on_levels (heapGet h lref) velocities I T uRep uLeak := by
  refine ⟨?_, ?_, ?_⟩
  · unfold repumper_call heapAlloc heapGet
    exact List.getD_append _ _ _ _ hl
  · unfold repumper_call heapAlloc
    intro hc
    simp only at hc
    omega
  · show (h ++ [repumper_effect_on_levels (heapGet h lref) velocities I T uRep uLeak]).getD
        h.length [] = repumper_effect_on_levels (heapGet h lref) velocities I T uRep uLeak
    rw [List.getD_append_right _ _ _ _ (le_refl h.length)]
    simp

theorem C10_repumper_frame_witness :
    (0 : ℕ) < ([[0]] : Heap).length ∧
    (heapGet (repumper_call [[0]] 0 [0] 0 0 (fun _ => 0) (fun _ => 0)).1 0 =
        heapGet [[0]] 0 ∧
     (repumper_call [[0]] 0 [0] 0 0 (fun _ => 0) (fun _ => 0)).2 ≠ 0 ∧
     heapGet (repumper_call [[0]] 0 [0] 0 0 (fun _ => 0) (fun _ => 0)).1
         (repumper_call [[0]] 0 [0] 0 0 (fun _ => 0) (fun _ => 0)).2 =
       repumper_effect_on_levels (heapGet [[0]] 0) [0] 0 0 (fun _ => 0) (fun _ => 0)) :=
  ⟨by norm_num, C10_repumper_frame [[0]] 0 [0] 0 0 (fun _ => 0) (fun _ => 0) (by norm_num)⟩

theorem list_range_one : List.range 1 = [0] := rfl

theorem npTimes_length (tm dt : ℝ) : (npTimes tm dt).length = nSteps tm dt := by
  rw [npTimes, List.length_map, List.length_range]

/-! ## Claim C4 -/

/-- Claim C4 fails on the code: with temperature 0, `dt = 1` and every
uniform draw equal to 0 (each draw therefore below its pair's positive
probability), an atom starting at level 0 ends the single call at
level 2, although the only table pair starting at level 0 ends at
level 1.  Hence the atom transitioned more than once in one call:
after its level changed it was re-evaluated against later pairs. -/
theorem C4_counterexample :
    transition_between_levels [0] 0 1 (fun _ _ => 0) = [2] ∧
    (transitionPairs.filter (fun q => q.1.1 == 0)).map (fun q => q.1.2) = [1] := by
  constructor
  · simp only [transition_between_levels, mapIdxFrom, transition_between_levels_one,
      transitionPairs, List.enum, List.enumFrom, List.foldl, applyPair]
    norm_num [Real.exp_zero]
  · rfl

/-- Claim C4 (amended): the ordered level-pair table is scanned in a fixed
deterministic order per atom per call, each pair firing when the fresh
uniform draw is below its probability and the atom's *current* level —
including changes made earlier in the same scan — equals the pair's
start; an atom that changed level is therefore re-evaluated against the
remaining pairs and may chain through several transitions in one call.
Consequently each atom's output level is connected to its input level by
a chain of table edges (and the output array is index-aligned with the
input). -/
theorem C4_ordered_scan (levels : List ℕ) (T dt : ℝ) (u : ℕ → ℕ → ℝ) :
    List.Forall₂ (Relation.ReflTransGen tableEdge) levels
      (transition_between_levels levels T dt u) :=
  forall₂_mapIdxFrom _ (fun j a => transition_one_reachable T dt (u j) a) 0 levels

/-! ## Claim C5 -/

/-- Claim C5 fails on the code: at a step state with a single atom at
level 0 and velocity 5, the recorded per-level mean-velocity 4-vector is
all-NaN — the source computes its components from the masks
`levels == 1, 2, 3, 4`, not `0, 1, 2, 3` — while the claim's component
for the populated level 0 would be `some 5`. -/
theorem C5_level_shift_eval :
    velocity_distribution_step [0] [5] = [none, none, none, none] ∧
    levelMeanVelocity_spec [0] [5] 0 = some 5 := by
  constructor
  · rfl
  · have ha : atomsAtLevel [0] [5] 0 = [5] := rfl
    unfold levelMeanVelocity_spec
    rw [ha]
    norm_num

/-! ## Claim C3 -/

/-- Claim C3 fails on the code: `simulate_mot` performs no configuration
validation.  With `n_atoms = 0` (and `time_max = 2`, `dt = 1`,
`n_simulations = 1`) the run executes both time steps over empty atom
arrays and the averaged output is produced — no invalid-configuration
condition is signalled and the claim's "no time step is executed" is
violated. -/
theorem C3_counterexample :
    ((mot_run 0 2 1 runRand0).2).length = 2 ∧
    (simulate_mot 0 2 1 1 (fun _ => runRand0)).avg_temperatures.length = 2 := by
  have h1 : ((mot_run 0 2 1 runRand0).2).length = 2 := by
    rw [mot_run_snd_length]
    norm_num [nSteps]
  refine ⟨h1, ?_⟩
  simp [simulate_mot, npMeanAxis0, list_range_one, h1]

/-- Claim C3 (amended): the code never validates its configuration and
never signals an invalid-configuration condition: for every
configuration, valid or not, each run executes exactly one step per
entry of the time grid `np.arange(0, time_max, dt)` (in particular every
step still executes when `n_atoms = 0`, and zero steps execute for a
nonpositive `time_max` with positive `dt` only because the grid is
empty), and the averager always returns an output with one
position/velocity row per run. -/
theorem C3_no_validation (n_atoms : ℕ) (time_max dt : ℝ) (n_sims : ℕ)
    (oracle : ℕ → RunRand) :
    ((mot_run n_atoms time_max dt (oracle 0)).2).length = nSteps time_max dt ∧
    (simulate_mot n_atoms time_max dt n_sims oracle).times.length = nSteps time_max dt ∧
    (simulate_mot n_atoms time_max dt n_sims oracle).avg_positions.length = n_sims := by
  refine ⟨mot_run_snd_length n_atoms time_max dt (oracle 0), ?_, ?_⟩
  · show (npTimes time_max dt).length = nSteps time_max dt
    exact npTimes_length time_max dt
  · simp [simulate_mot, npMeanAxis1]

/-! ## Claim C1 -/

/-- Claim C1 fails on the code: with `n_simulations = 1`, `n_atoms = 1`,
`time_max = 3`, `dt = 1` there are 3 steps — `times` and
`avg_temperatures` (averaged with `axis=0`, over runs) have length 3 —
but `avg_positions` is computed with `np.mean(positions_all, axis=1)`,
the mean over the *step* axis, so its first axis has length
`n_simulations = 1`, not 3: it is not indexed by step and its entries are
not per-step means over runs. -/
theorem C1_axis_bug_eval :
    (simulate_mot 1 3 1 1 (fun _ => runRand0)).times.length = 3 ∧
    (simulate_mot 1 3 1 1 (fun _ => runRand0)).avg_temperatures.length = 3 ∧
    (simulate_mot 1 3 1 1 (fun _ => runRand0)).avg_positions.length = 1 := by
  have hrun : ((mot_run 1 3 1 runRand0).2).length = 3 := by
    rw [mot_run_snd_length]
    norm_num [nSteps]
  refine ⟨?_, ?_, ?_⟩
  · show (npTimes 3 1).length = 3
    rw [npTimes_length]
    norm_num [nSteps]
  · simp [simulate_mot, npMeanAxis0, list_range_one, hrun]
  · simp [simulate_mot, npMeanAxis1, list_range_one]

/-! ## Claim C2 -/

/-- Claim C2 fails on the code: with `n_simulations = 1` and 2 time steps,
the single run's recorded per-step position series has 2 entries (one per
step), but the averager's `avg_positions` — `np.mean` over the step axis
(`axis=1`) — has a single row; the outputs cannot be identical
elementwise. -/
theorem C2_single_run_mismatch_eval :
    (simulate_mot 1 2 1 1 (fun _ => runRand0)).avg_positions.length = 1 ∧
    ((mot_run 1 2 1 runRand0).2).length = 2 := by
  constructor
  · simp [simulate_mot, npMeanAxis1, list_range_one]
  · rw [mot_run_snd_length]
    norm_num [nSteps]

/-! ## Claim C8 -/

/-- Claim C8: throughout every run with `n_atoms ≥ 1`, the positions,
velocities and levels arrays keep length `n_atoms` after every number of
steps, and every recorded level-population 4-vector sums to 1 within
`1e-9`. -/
theorem C8_shape_and_population (n_atoms : ℕ) (tm dt : ℝ) (rr : RunRand)
    (hn : 1 ≤ n_atoms) :
    (∀ t : ℕ,
      ((mot_loop dt rr.step 0 t (mot_init n_atoms rr)).1).positions.length = n_atoms ∧
      ((mot_loop dt rr.step 0 t (mot_init n_atoms rr)).1).velocities.length = n_atoms ∧
      ((mot_loop dt rr.step 0 t (mot_init n_atoms rr)).1).levels.length = n_atoms) ∧
    (∀ rec ∈ (mot_run n_atoms tm dt rr).2, |rec.popvec.sum - 1| ≤ 1e-9) := by
  constructor
  · intro t
    have h := mot_loop_wf dt rr.step n_atoms t 0 (mot_init n_atoms rr)
      (mot_init_wf n_atoms rr)
    exact ⟨h.1, h.2.1, h.2.2.1⟩
  · intro rec hrec
    obtain ⟨sr', st', hwf, rfl⟩ := mot_run_records n_atoms tm dt rr rec hrec
    exact mot_step_popvec_sum dt sr' st' n_atoms hn hwf

theorem C8_shape_and_population_witness :
    1 ≤ 1 ∧
    ((∀ t : ℕ,
      ((mot_loop 1 runRand0.step 0 t (mot_init 1 runRand0)).1).positions.length = 1 ∧
      ((mot_loop 1 runRand0.step 0 t (mot_init 1 runRand0)).1).velocities.length = 1 ∧
      ((mot_loop 1 runRand0.step 0 t (mot_init 1 runRand0)).1).levels.length = 1) ∧
    (∀ rec ∈ (mot_run 1 1 1 runRand0).2, |rec.popvec.sum - 1| ≤ 1e-9)) :=
  ⟨le_refl 1, C8_shape_and_population 1 1 1 runRand0 (le_refl 1)⟩

end
